import Mathlib

/-!
Verification of the face-recognition web service
(`web_server_flask/logic.py` and `web_server_flask/app.py`).

Shallow embedding conventions:

* External capabilities (OpenCV decoding/drawing, the `face_recognition`
  library, Firebase storage, the camera) are modelled as parameters:
  an abstract embedding type `α`, an abstract distance function
  `dist : α → α → ℚ`, and `Except`-valued inputs standing for the
  fallible decode/detect pipeline.
* A Python dict with insertion order is modelled as an association list.
* `datetime` timestamps are modelled as integers counting seconds, so
  `timedelta(hours=1)` is `3600`.
* Python exceptions are modelled by `Except`: a function without a
  `try/except` returns `Except` (errors propagate to the caller), a
  function that catches everything returns a plain value.
-/

namespace FaceRec

/-- `FACE_MATCH_THRESHOLD = 0.4` from `logic.py`, as the exact rational
4/10 (written with `mkRat` so that it evaluates by kernel reduction). -/
def FACE_MATCH_THRESHOLD : ℚ := mkRat 4 10

/-- The known-encodings store: identity name ↦ list of
(embedding, source filename) pairs, exactly the dict built by
`load_known_people_images_from_firebase` in `logic.py`.  `α` is the
abstract type of 128-dimensional embeddings. -/
abbrev Store (α : Type) := List (String × List (α × String))

/-- The matching loop shared verbatim by `recognize_faces_in_image`
(logic.py lines 75-84) and `process_frame` (logic.py lines 116-125):
starting from `("Unknown", FACE_MATCH_THRESHOLD)`, scan every person and
every one of their encodings, replacing the current best exactly when the
distance is strictly smaller. -/
def matchFace {α : Type} (dist : α → α → ℚ) (known_encodings : Store α)
    (face_encoding : α) : String × ℚ :=
  known_encodings.foldl
    (fun best p =>
      p.2.foldl
        (fun best e =>
          if dist e.1 face_encoding < best.2 then (p.1, dist e.1 face_encoding)
          else best)
        best)
    ("Unknown", FACE_MATCH_THRESHOLD)

/-- One step of the matching loop on the flattened store. -/
def matchStep {α : Type} (dist : α → α → ℚ) (face_encoding : α)
    (best : String × ℚ) (p : String × α) : String × ℚ :=
  if dist p.2 face_encoding < best.2 then (p.1, dist p.2 face_encoding)
  else best

/-- The store flattened in iteration order: each `(person_name, encoding)`
pair in the order the nested loops of the matcher visit them. -/
def entries {α : Type} : Store α → List (String × α)
  | [] => []
  | p :: rest => p.2.map (fun e => (p.1, e.1)) ++ entries rest

/-- The matching loop as a single fold over the flattened store. -/
def matchEntries {α : Type} (dist : α → α → ℚ) (l : List (String × α))
    (face_encoding : α) : String × ℚ :=
  l.foldl (matchStep dist face_encoding) ("Unknown", FACE_MATCH_THRESHOLD)

/-- A bounding box as returned by `face_recognition.face_locations`:
`(top, right, bottom, left)`. -/
structure FaceLoc where
  top : ℤ
  right : ℤ
  bottom : ℤ
  left : ℤ
deriving DecidableEq, Repr

/-- The result of the external decode/detect/encode pipeline on one image:
the zipped `(face_locations, face_encodings)` lists. -/
structure DetectedImage (α : Type) where
  faces : List (FaceLoc × α)
deriving DecidableEq, Repr

/-- One element of the `recognized_faces` list built by the matcher:
`(top, right, bottom, left, best_match_name)`. -/
abbrev RecognizedFace := ℤ × ℤ × ℤ × ℤ × String

/-- `recognize_faces_in_image` (logic.py lines 62-89).  The decode +
detection prefix (`imdecode`, `cvtColor`, `face_locations`,
`face_encodings`) is external and fallible, modelled by the
`Except`-valued `decoded` input; the function has no `try/except`, so a
failure propagates to the caller.  On success it labels each detected
face with the matcher's best name. -/
def recognize_faces_in_image {α : Type} (dist : α → α → ℚ)
    (decoded : Except String (DetectedImage α)) (known_encodings : Store α) :
    Except String (List RecognizedFace) :=
  match decoded with
  | .error e => .error e
  | .ok img =>
      .ok (img.faces.map (fun f =>
        (f.1.top, f.1.right, f.1.bottom, f.1.left,
          (matchFace dist known_encodings f.2).1)))

/-- `process_frame` (logic.py lines 108-133): the same pipeline wrapped in
`try/except Exception`, returning the empty list on any internal failure. -/
def process_frame {α : Type} (dist : α → α → ℚ)
    (decoded : Except String (DetectedImage α)) (known_encodings : Store α) :
    List RecognizedFace :=
  match decoded with
  | .error _ => []
  | .ok img =>
      img.faces.map (fun f =>
        (f.1.top, f.1.right, f.1.bottom, f.1.left,
          (matchFace dist known_encodings f.2).1))

/-! ### Annotation (logic.py `annotate_image`, app.py `annotate_frame`)

Drawing itself (`cv2.rectangle`, `cv2.putText`, `cv2.imencode`) is
external; what is the repository's own logic is where the name label is
placed relative to the face box, so we embed the text-position
computation of each annotator.  The rendered text width returned by
`cv2.getTextSize` is an external input `text_width`. -/

/-- Text position used by `annotate_image` (logic.py line 100):
`cv2.putText(img, name, (left + 6, bottom - 6), ...)`, unconditionally. -/
def annotate_image_text_position (left bottom : ℤ) : ℤ × ℤ :=
  (left + 6, bottom - 6)

/-- Text position used by `annotate_frame` (app.py lines 212-214):
start from `(left + 6, bottom - 6)` and move left to
`(right - text_width - 6, bottom - 6)` when the text would cross `right`. -/
def annotate_frame_text_position (left right bottom text_width : ℤ) : ℤ × ℤ :=
  let text_position := (left + 6, bottom - 6)
  if text_position.1 + text_width > right then
    (right - text_width - 6, bottom - 6)
  else text_position

/-! ### Upload-and-stream video (app.py `stream_annotated_video`) -/

/-- Outcome of one run of the `stream_annotated_video` generator:
the multipart parts it yielded, the session map it left behind, and
whether it removed the stored video file.  `π` is the abstract type of
encoded frame parts. -/
structure StreamOutcome (π : Type) where
  yielded : List π
  uploaded_videos : List (String × ℤ)
  file_deleted : Bool
deriving Repr

/-- Lookup in the `uploaded_videos` session map (`video_path in
uploaded_videos` / `uploaded_videos[video_path]`). -/
def lookup_video (uploaded_videos : List (String × ℤ)) (video_path : String) :
    Option ℤ :=
  (uploaded_videos.find? (fun q => q.1 == video_path)).map Prod.snd

/-- `del uploaded_videos[video_path]`. -/
def remove_video (uploaded_videos : List (String × ℤ)) (video_path : String) :
    List (String × ℤ) :=
  uploaded_videos.filter (fun q => !(q.1 == video_path))

/-- `stream_annotated_video` (app.py lines 165-200).  `now` is the stream
request's `datetime.now()` in seconds; `opened` models
`video_capture.isOpened()`; `frames` are the frames `read()` yields before
end-of-file; `handle` models `annotate_frame(frame, process_frame(frame,
known_encodings))` producing one multipart part per frame.
The source raises `ValueError` when the session is missing or the capture
fails to open; the generator's own `except ValueError` catches it after
logging, so the run ends with nothing yielded and no other effect.
Only the expiry branch (`now - ts > 1 hour`) removes the file and the
session entry. -/
def stream_annotated_video {φ π : Type} (now : ℤ)
    (uploaded_videos : List (String × ℤ)) (video_path : String)
    (opened : Bool) (frames : List φ) (handle : φ → π) : StreamOutcome π :=
  match lookup_video uploaded_videos video_path with
  | none => ⟨[], uploaded_videos, false⟩
  | some ts =>
      if now - ts > 3600 then
        ⟨[], remove_video uploaded_videos video_path, true⟩
      else if !opened then ⟨[], uploaded_videos, false⟩
      else ⟨frames.map handle, uploaded_videos, false⟩

/-! ### Live feed events (app.py `process_video`) -/

/-- `detected_names = {name for (_, _, _, _, name) in recognized_faces}`
(app.py line 248). -/
def detected_names (recognized_faces : List RecognizedFace) : Finset String :=
  (recognized_faces.map (fun r => r.2.2.2.2)).toFinset

/-- The per-frame event decision of the live-feed loop (app.py lines
250-253): emit `persons_recognized` and update `previous_names` exactly
when the detected name set differs from `previous_names`.  Returns, per
frame, whether the event was emitted. -/
def emit_events (previous_names : Finset String) :
    List (List RecognizedFace) → List Bool
  | [] => []
  | results :: rest =>
      if detected_names results ≠ previous_names then
        true :: emit_events (detected_names results) rest
      else
        false :: emit_events previous_names rest

/-- The event trace of `process_video` (app.py lines 228-257) over the
frames read while streaming: `previous_names` starts empty, each frame is
matched by `process_frame`, and the event fires on a set change. -/
def process_video_events {α : Type} (dist : α → α → ℚ)
    (known_encodings : Store α)
    (frames : List (Except String (DetectedImage α))) : List Bool :=
  emit_events ∅ (frames.map (fun f => process_frame dist f known_encodings))

/-! ### Load-once guard (app.py `load_known_encodings`) -/

/-- The part of the app's global state touched by `load_known_encodings`. -/
structure AppState (α : Type) where
  known_encodings : Store α
  loaded_images : Bool

/-- Python `dict.update`: keys already present keep their position and
take the new value; new keys are appended in the update's order. -/
def dict_update {β : Type} (old upd : List (String × β)) :
    List (String × β) :=
  old.map (fun p =>
    match upd.find? (fun q => q.1 == p.1) with
    | some q => (p.1, q.2)
    | none => p) ++
  upd.filter (fun q => !(old.any (fun p => p.1 == q.1)))

/-- `load_known_encodings` (app.py lines 65-80).  `fetch` is the external
`load_known_people_images_from_firebase()` call: `Except.ok` is a
successful fetch, `Except.error` a raised exception (caught and logged,
leaving `loaded_images` false).  The returned `Bool` records whether a
fetch from remote storage was performed.  The semaphore only serialises
concurrent first calls, which the sequential model needs no counterpart
for. -/
def load_known_encodings {α : Type} (s : AppState α)
    (fetch : Except String (Store α)) : AppState α × Bool :=
  if s.loaded_images then (s, false)
  else
    match fetch with
    | .ok fetched => (⟨dict_update s.known_encodings fetched, true⟩, true)
    | .error _ => (s, true)

/-! ### Concrete fixtures used by witnesses and counterexamples -/

/-- Running previous-names value of the live-feed loop after consuming a
list of per-frame results, starting from `p`. -/
def prev_after (p : Finset String) : List (List RecognizedFace) → Finset String
  | [] => p
  | results :: rest => prev_after (detected_names results) rest

/-- A one-person store over embeddings modelled as naturals. -/
def store₁ : Store ℕ := [("alice", [(0, "alice1.jpg")])]

/-- A two-person store, one encoding each. -/
def store₂ : Store ℕ :=
  [("alice", [(0, "alice1.jpg")]), ("bob", [(1, "bob1.jpg")])]

/-- A distance function putting every embedding at distance 1/2. -/
def distFar (_a _b : ℕ) : ℚ := mkRat 1 2

/-- A distance function putting every embedding at distance 1/10. -/
def distNear (_a _b : ℕ) : ℚ := mkRat 1 10

/-- A distance function putting every embedding at distance 2/10. -/
def distNear2 (_a _b : ℕ) : ℚ := mkRat 2 10

/-- A distance function tying every embedding at distance 3/10. -/
def distTie (_a _b : ℕ) : ℚ := mkRat 3 10

/-- A one-face detected image. -/
def img₁ : DetectedImage ℕ := ⟨[(⟨3, 4, 5, 6⟩, 7)]⟩

/-- A one-entry session map: "vid.mp4" uploaded at time 0. -/
def uploaded₁ : List (String × ℤ) := [("vid.mp4", 0)]

/-- An app state whose store is already loaded. -/
def appState₁ : AppState ℕ := ⟨store₁, true⟩

/-! ### Fold lemmas for the matcher -/

theorem foldl_inner_eq {α : Type} (dist : α → α → ℚ) (face : α)
    (name : String) (l : List (α × String)) (acc : String × ℚ) :
    l.foldl
        (fun best e =>
          if dist e.1 face < best.2 then (name, dist e.1 face) else best)
        acc
      = (l.map (fun e => (name, e.1))).foldl (matchStep dist face) acc := by
  induction l generalizing acc with
  | nil => rfl
  | cons e l ih =>
      simp only [List.map_cons, List.foldl_cons]
      rw [ih]
      rfl

/-- `matchFace` is the single fold of `matchStep` over the flattened store. -/
theorem matchFace_eq_matchEntries {α : Type} (dist : α → α → ℚ)
    (store : Store α) (face : α) :
    matchFace dist store face = matchEntries dist (entries store) face := by
  unfold matchFace matchEntries
  generalize ("Unknown", FACE_MATCH_THRESHOLD) = acc
  induction store generalizing acc with
  | nil => rfl
  | cons p rest ih =>
      simp only [List.foldl_cons, entries, List.foldl_append]
      rw [foldl_inner_eq, ih]

/-- Core invariant of the matching fold: the result is either the initial
accumulator untouched, or it strictly lowered the distance and both its
name and its distance come from some visited entry. -/
theorem matchStep_foldl_spec {α : Type} (dist : α → α → ℚ) (face : α) :
    ∀ (l : List (String × α)) (acc : String × ℚ),
      l.foldl (matchStep dist face) acc = acc ∨
        ((l.foldl (matchStep dist face) acc).2 < acc.2 ∧
          ∃ p ∈ l, p.1 = (l.foldl (matchStep dist face) acc).1 ∧
            dist p.2 face = (l.foldl (matchStep dist face) acc).2) := by
  intro l
  induction l with
  | nil => intro acc; exact Or.inl rfl
  | cons p l ih =>
      intro acc
      simp only [List.foldl_cons]
      by_cases h : dist p.2 face < acc.2
      · have hstep : matchStep dist face acc p = (p.1, dist p.2 face) := by
          simp [matchStep, h]
        rw [hstep]
        rcases ih (p.1, dist p.2 face) with heq | ⟨hlt, q, hq, hname, hdist⟩
        · rw [heq]
          exact Or.inr ⟨h, p, List.mem_cons_self p l, rfl, rfl⟩
        · exact Or.inr ⟨lt_trans hlt h, q, List.mem_cons_of_mem p hq,
            hname, hdist⟩
      · have hstep : matchStep dist face acc p = acc := by
          simp [matchStep, h]
        rw [hstep]
        rcases ih acc with heq | ⟨hlt, q, hq, hname, hdist⟩
        · exact Or.inl heq
        · exact Or.inr ⟨hlt, q, List.mem_cons_of_mem p hq, hname, hdist⟩

/-- If the accumulator's distance already beats (≤) every remaining entry,
the fold never updates. -/
theorem matchStep_foldl_no_update {α : Type} (dist : α → α → ℚ) (face : α) :
    ∀ (l : List (String × α)) (acc : String × ℚ),
      (∀ p ∈ l, acc.2 ≤ dist p.2 face) →
      l.foldl (matchStep dist face) acc = acc := by
  intro l
  induction l with
  | nil => intro acc _; rfl
  | cons p l ih =>
      intro acc h
      have hp : acc.2 ≤ dist p.2 face := h p (List.mem_cons_self p l)
      have hstep : matchStep dist face acc p = acc := by
        simp [matchStep, not_lt_of_le hp]
      simp only [List.foldl_cons, hstep]
      exact ih acc (fun q hq => h q (List.mem_cons_of_mem p hq))

/-- If `d` is strictly below the accumulator's distance and strictly below
every remaining entry's distance, it stays strictly below the fold's result. -/
theorem matchStep_foldl_gt {α : Type} (dist : α → α → ℚ) (face : α) (d : ℚ) :
    ∀ (l : List (String × α)) (acc : String × ℚ),
      d < acc.2 → (∀ p ∈ l, d < dist p.2 face) →
      d < (l.foldl (matchStep dist face) acc).2 := by
  intro l
  induction l with
  | nil => intro acc hacc _; exact hacc
  | cons p l ih =>
      intro acc hacc h
      simp only [List.foldl_cons]
      by_cases hp : dist p.2 face < acc.2
      · have hstep : matchStep dist face acc p = (p.1, dist p.2 face) := by
          simp [matchStep, hp]
        rw [hstep]
        exact ih _ (h p (List.mem_cons_self p l))
          (fun q hq => h q (List.mem_cons_of_mem p hq))
      · have hstep : matchStep dist face acc p = acc := by
          simp [matchStep, hp]
        rw [hstep]
        exact ih acc hacc (fun q hq => h q (List.mem_cons_of_mem p hq))

/-- The name of every flattened entry is a key of the store. -/
theorem entries_name_mem {α : Type} (store : Store α) (p : String × α)
    (hp : p ∈ entries store) : p.1 ∈ store.map Prod.fst := by
  induction store with
  | nil => simp [entries] at hp
  | cons q rest ih =>
      simp only [entries, List.mem_append, List.mem_map] at hp
      rcases hp with ⟨e, _, he⟩ | hp
      · simp [← he]
      · simp only [List.map_cons, List.mem_cons]
        exact Or.inr (ih hp)

/-- The name returned by the matcher is `"Unknown"` or a key of the store. -/
theorem matchFace_name_mem {α : Type} (dist : α → α → ℚ) (store : Store α)
    (face : α) :
    (matchFace dist store face).1 = "Unknown" ∨
      (matchFace dist store face).1 ∈ store.map Prod.fst := by
  rw [matchFace_eq_matchEntries]
  rcases matchStep_foldl_spec dist face (entries store)
      ("Unknown", FACE_MATCH_THRESHOLD) with heq | ⟨_, p, hp, hname, _⟩
  · left
    rw [matchEntries, heq]
  · right
    rw [matchEntries, ← hname]
    exact entries_name_mem store p hp

/-! ### Helper lemmas for the stream, event, and annotation models -/

/-- The fold's distance component is the minimum of the threshold and all
visited distances. -/
theorem matchStep_foldl_snd {α : Type} (dist : α → α → ℚ) (face : α) :
    ∀ (l : List (String × α)) (acc : String × ℚ),
      (l.foldl (matchStep dist face) acc).2
        = l.foldl (fun m p => min m (dist p.2 face)) acc.2 := by
  intro l
  induction l with
  | nil => intro acc; rfl
  | cons p l ih =>
      intro acc
      simp only [List.foldl_cons]
      by_cases h : dist p.2 face < acc.2
      · have hstep : matchStep dist face acc p = (p.1, dist p.2 face) := by
          simp [matchStep, h]
        rw [hstep, ih, min_eq_right (le_of_lt h)]
      · have hstep : matchStep dist face acc p = acc := by
          simp [matchStep, h]
        rw [hstep, ih, min_eq_left (le_of_not_lt h)]

/-- After `del uploaded_videos[video_path]`, the path is gone from the map. -/
theorem lookup_remove_video (uploaded_videos : List (String × ℤ))
    (video_path : String) :
    lookup_video (remove_video uploaded_videos video_path) video_path
      = none := by
  have hnone : (remove_video uploaded_videos video_path).find?
      (fun q => q.1 == video_path) = none := by
    rw [List.find?_eq_none]
    intro x hx
    have hmem := List.mem_filter.1 hx
    simpa using hmem.2
  unfold lookup_video
  rw [hnone]
  rfl

/-- `emit_events` yields one decision per frame. -/
theorem emit_events_length (p : Finset String)
    (l : List (List RecognizedFace)) :
    (emit_events p l).length = l.length := by
  induction l generalizing p with
  | nil => rfl
  | cons x l ih =>
      by_cases h : detected_names x ≠ p
      · simp [emit_events, h, ih]
      · simp [emit_events, h, ih]

/-- One step of the event trace. -/
theorem emit_events_cons (p : Finset String) (xr : List RecognizedFace)
    (rest : List (List RecognizedFace)) :
    emit_events p (xr :: rest)
      = if detected_names xr ≠ p then
          true :: emit_events (detected_names xr) rest
        else false :: emit_events p rest := rfl

/-- One step of the previous-names accumulator. -/
theorem prev_after_cons (p : Finset String) (xr : List RecognizedFace)
    (rest : List (List RecognizedFace)) :
    prev_after p (xr :: rest) = prev_after (detected_names xr) rest := rfl

/-- Splitting the live-feed event trace at any point: the suffix restarts
with the previous-names value accumulated over the prefix. -/
theorem emit_events_append (p : Finset String)
    (l₁ l₂ : List (List RecognizedFace)) :
    emit_events p (l₁ ++ l₂)
      = emit_events p l₁ ++ emit_events (prev_after p l₁) l₂ := by
  induction l₁ generalizing p with
  | nil => rfl
  | cons x l₁ ih =>
      rw [List.cons_append, emit_events_cons, emit_events_cons,
        prev_after_cons]
      by_cases h : detected_names x ≠ p
      · rw [if_pos h, if_pos h, List.cons_append, ih]
      · have he : detected_names x = p := not_not.mp h
        rw [if_neg h, if_neg h, he, List.cons_append, ih]

/-- The first decision of the event trace compares the first frame's name
set against the incoming previous-names value. -/
theorem emit_events_head (p : Finset String) (xr : List RecognizedFace)
    (rest : List (List RecognizedFace)) :
    (emit_events p (xr :: rest))[0]?
      = some (decide (detected_names xr ≠ p)) := by
  by_cases h : detected_names xr ≠ p
  · simp [emit_events, h]
  · simp [emit_events, h]

/-- The second decision of the event trace compares the second frame's
name set against the first frame's, whatever came before. -/
theorem emit_events_second (p : Finset String)
    (xr yr : List RecognizedFace) (rest : List (List RecognizedFace)) :
    (emit_events p (xr :: yr :: rest))[1]?
      = some (decide (detected_names yr ≠ detected_names xr)) := by
  rw [emit_events_cons]
  by_cases h : detected_names xr ≠ p
  · rw [if_pos h, List.getElem?_cons_succ]
    exact emit_events_head (detected_names xr) yr rest
  · have he : detected_names xr = p := not_not.mp h
    rw [if_neg h, List.getElem?_cons_succ, ← he]
    exact emit_events_head (detected_names xr) yr rest

/-! ### Claim theorems -/

/-- Claim C1: the matcher used by `recognize_faces_in_image` and
`process_frame` labels a face with a known identity only if some known
embedding is at distance strictly below the 0.4 threshold; when every
known embedding is at distance 0.4 or more, the label is `"Unknown"`;
and a winning distance ≥ 0.4 never carries a label other than
`"Unknown"`.  The last two conjuncts show every label either function
outputs is a matcher name, so the property covers both. -/
theorem matcher_threshold_correct {α : Type} (dist : α → α → ℚ)
    (store : Store α) (face : α) :
    (FACE_MATCH_THRESHOLD ≤ (matchFace dist store face).2 →
      (matchFace dist store face).1 = "Unknown")
    ∧ ((matchFace dist store face).1 ≠ "Unknown" →
      ∃ p ∈ entries store, dist p.2 face < FACE_MATCH_THRESHOLD)
    ∧ ((∀ p ∈ entries store, FACE_MATCH_THRESHOLD ≤ dist p.2 face) →
      matchFace dist store face = ("Unknown", FACE_MATCH_THRESHOLD))
    ∧ (∀ (decoded : Except String (DetectedImage α)) (x : RecognizedFace),
      x ∈ process_frame dist decoded store →
      ∃ e, x.2.2.2.2 = (matchFace dist store e).1)
    ∧ (∀ (decoded : Except String (DetectedImage α))
        (o : List RecognizedFace) (x : RecognizedFace),
      recognize_faces_in_image dist decoded store = Except.ok o → x ∈ o →
      ∃ e, x.2.2.2.2 = (matchFace dist store e).1) := by
  have hr : matchFace dist store face
      = (entries store).foldl (matchStep dist face)
          ("Unknown", FACE_MATCH_THRESHOLD) :=
    matchFace_eq_matchEntries dist store face
  have hspec := matchStep_foldl_spec dist face (entries store)
    ("Unknown", FACE_MATCH_THRESHOLD)
  refine ⟨?_, ?_, ?_, ?_, ?_⟩
  · intro h
    rcases hspec with heq | ⟨hlt, _⟩
    · rw [hr, heq]
    · rw [hr] at h
      exact absurd hlt (not_lt_of_le h)
  · intro h
    rcases hspec with heq | ⟨hlt, q, hq, _, hdist⟩
    · rw [hr, heq] at h
      exact absurd rfl h
    · exact ⟨q, hq, by rw [hdist]; exact hlt⟩
  · intro h
    rcases hspec with heq | ⟨hlt, q, hq, _, hdist⟩
    · rw [hr, heq]
    · exact absurd (lt_of_le_of_lt (hdist ▸ h q hq) hlt) (lt_irrefl _)
  · intro decoded x hx
    cases decoded with
    | error e => simp [process_frame] at hx
    | ok img =>
        simp only [process_frame, List.mem_map] at hx
        obtain ⟨f, _, hfe⟩ := hx
        exact ⟨f.2, by rw [← hfe]⟩
  · intro decoded o x ho hx
    cases decoded with
    | error e => simp [recognize_faces_in_image] at ho
    | ok img =>
        simp only [recognize_faces_in_image, Except.ok.injEq] at ho
        rw [← ho] at hx
        simp only [List.mem_map] at hx
        obtain ⟨f, _, hfe⟩ := hx
        exact ⟨f.2, by rw [← hfe]⟩

/-- Witness for C1 at concrete inputs: a store where everything is far
yields `"Unknown"`, a store where something is close yields a match below
the threshold, and a concrete face in each function's output carries a
matcher label. -/
theorem matcher_threshold_correct_witness :
    (matchFace distFar store₁ 7).1 = "Unknown"
    ∧ (∃ p ∈ entries store₁, distNear p.2 7 < FACE_MATCH_THRESHOLD)
    ∧ matchFace distFar store₁ 7 = ("Unknown", FACE_MATCH_THRESHOLD)
    ∧ (∃ e, ((3, 4, 5, 6, "alice") : RecognizedFace).2.2.2.2
        = (matchFace distNear store₁ e).1)
    ∧ (∃ e, ((3, 4, 5, 6, "alice") : RecognizedFace).2.2.2.2
        = (matchFace distNear store₁ e).1) :=
  ⟨(matcher_threshold_correct distFar store₁ 7).1 (by decide),
   (matcher_threshold_correct distNear store₁ 7).2.1 (by decide),
   (matcher_threshold_correct distFar store₁ 7).2.2.1 (by decide),
   (matcher_threshold_correct distNear store₁ 7).2.2.2.1
     (Except.ok img₁) (3, 4, 5, 6, "alice") (by decide),
   (matcher_threshold_correct distNear store₁ 7).2.2.2.2
     (Except.ok img₁) [(3, 4, 5, 6, "alice")] (3, 4, 5, 6, "alice")
     rfl (by decide)⟩

/-- Claim C2: when the first entry of the flattened store that attains the
minimum distance is strictly below the threshold, the matcher returns that
entry's identity — a later candidate replaces the current best only on a
strictly smaller distance, so ties keep the earliest-seen identity. -/
theorem matcher_tie_break_first {α : Type} (dist : α → α → ℚ)
    (store : Store α) (face : α) (l₁ : List (String × α)) (p : String × α)
    (l₂ : List (String × α))
    (hsplit : entries store = l₁ ++ p :: l₂)
    (hp : dist p.2 face < FACE_MATCH_THRESHOLD)
    (hbefore : ∀ q ∈ l₁, dist p.2 face < dist q.2 face)
    (hafter : ∀ q ∈ l₂, dist p.2 face ≤ dist q.2 face) :
    matchFace dist store face = (p.1, dist p.2 face) := by
  rw [matchFace_eq_matchEntries, matchEntries, hsplit, List.foldl_append]
  have h1 : dist p.2 face
      < (l₁.foldl (matchStep dist face) ("Unknown", FACE_MATCH_THRESHOLD)).2 :=
    matchStep_foldl_gt dist face _ l₁ _ hp hbefore
  rw [List.foldl_cons]
  have hstep : matchStep dist face
      (l₁.foldl (matchStep dist face) ("Unknown", FACE_MATCH_THRESHOLD)) p
      = (p.1, dist p.2 face) := by
    simp [matchStep, h1]
  rw [hstep]
  exact matchStep_foldl_no_update dist face l₂ _ hafter

/-- Witness for C2: `"alice"` and `"bob"` tie at distance 3/10 < 0.4 and
the matcher keeps `"alice"`, the identity seen first. -/
theorem matcher_tie_break_first_witness :
    matchFace distTie store₂ 5 = ("alice", distTie 0 5) :=
  matcher_tie_break_first distTie store₂ 5 [] ("alice", 0)
    [("bob", 1)] (by decide) (by decide) (by decide) (by decide)

/-- Claim C3, counterexample: the claim says the match output contains the
winning distance, but `recognize_faces_in_image` and `process_frame`
append only `(top, right, bottom, left, best_match_name)`.  Two runs whose
winning distances differ (1/10 vs 2/10) produce identical outputs, so the
output cannot contain the winning distance. -/
theorem match_output_omits_distance :
    recognize_faces_in_image distNear (Except.ok img₁) store₁
      = recognize_faces_in_image distNear2 (Except.ok img₁) store₁
    ∧ process_frame distNear (Except.ok img₁) store₁
      = process_frame distNear2 (Except.ok img₁) store₁
    ∧ (matchFace distNear store₁ 7).2 ≠ (matchFace distNear2 store₁ 7).2 :=
  ⟨rfl, rfl, by decide⟩

/-- Claim C3 as amended: the output contains, for every detected face, its
bounding box and the best identity name (or `"Unknown"`); the winning
distance — the minimum of the threshold and all known distances — is
computed by the matcher but discarded, not included in the output. -/
theorem match_output_shape {α : Type} (dist : α → α → ℚ)
    (img : DetectedImage α) (store : Store α) (face : α) :
    recognize_faces_in_image dist (Except.ok img) store
      = Except.ok (img.faces.map (fun f =>
          (f.1.top, f.1.right, f.1.bottom, f.1.left,
            (matchFace dist store f.2).1)))
    ∧ process_frame dist (Except.ok img) store
      = img.faces.map (fun f =>
          (f.1.top, f.1.right, f.1.bottom, f.1.left,
            (matchFace dist store f.2).1))
    ∧ (matchFace dist store face).2
      = (entries store).foldl (fun m p => min m (dist p.2 face))
          FACE_MATCH_THRESHOLD :=
  ⟨rfl, rfl, by
    rw [matchFace_eq_matchEntries, matchEntries]
    exact matchStep_foldl_snd dist face (entries store)
      ("Unknown", FACE_MATCH_THRESHOLD)⟩

/-- Claim C4, counterexample: the claim says every Annotate operation
clamps the label inside the right edge, but `annotate_image` (logic.py)
places the text at `(left + 6, bottom - 6)` unconditionally.  With
`left = 0`, `right = 10`, `bottom = 50` and text width `100`, the default
position overflows the right edge (so the claim requires a clamp), yet the
text still ends at 106 > 10. -/
theorem annotate_image_no_clamp :
    annotate_image_text_position 0 50 = (6, 44)
    ∧ (annotate_image_text_position 0 50).1 + 100 > 10 :=
  ⟨rfl, by decide⟩

/-- Claim C4 as amended: only `annotate_frame` (app.py) clamps — whenever
the default position plus the text width would exceed the box's right
edge, the text moves to `(right - text_width - 6, bottom - 6)` and then
fits inside the right edge; `annotate_image` (logic.py) places the label
at `(left + 6, bottom - 6)` unconditionally, with no clamping. -/
theorem annotate_frame_clamps (left right bottom text_width : ℤ)
    (h : left + 6 + text_width > right) :
    annotate_frame_text_position left right bottom text_width
      = (right - text_width - 6, bottom - 6)
    ∧ (annotate_frame_text_position left right bottom text_width).1
        + text_width ≤ right
    ∧ annotate_image_text_position left bottom = (left + 6, bottom - 6) := by
  have hpos : annotate_frame_text_position left right bottom text_width
      = (right - text_width - 6, bottom - 6) := by
    unfold annotate_frame_text_position
    exact if_pos h
  refine ⟨hpos, ?_, rfl⟩
  rw [hpos]
  omega

/-- Witness for the amended C4 at `left = 0`, `right = 10`, `bottom = 50`,
text width `100`. -/
theorem annotate_frame_clamps_witness :
    annotate_frame_text_position 0 10 50 100 = (10 - 100 - 6, 50 - 6)
    ∧ (annotate_frame_text_position 0 10 50 100).1 + 100 ≤ 10
    ∧ annotate_image_text_position 0 50 = (0 + 6, 50 - 6) :=
  annotate_frame_clamps 0 10 50 100 (by decide)

/-- Claim C5: when the session's recorded upload timestamp is more than
one hour (3600 s) before the stream request, the generator yields no frame
part, removes the session entry, and reports the file deleted. -/
theorem expired_video_deleted_no_yield {φ π : Type} (now ts : ℤ)
    (uploaded_videos : List (String × ℤ)) (video_path : String)
    (opened : Bool) (frames : List φ) (handle : φ → π)
    (hsession : lookup_video uploaded_videos video_path = some ts)
    (hexpired : now - ts > 3600) :
    stream_annotated_video now uploaded_videos video_path opened frames
        handle
      = ⟨[], remove_video uploaded_videos video_path, true⟩
    ∧ lookup_video
        (stream_annotated_video now uploaded_videos video_path opened frames
          handle).uploaded_videos video_path = none := by
  have h : stream_annotated_video now uploaded_videos video_path opened
      frames handle
      = ⟨[], remove_video uploaded_videos video_path, true⟩ := by
    unfold stream_annotated_video
    rw [hsession]
    exact if_pos hexpired
  refine ⟨h, ?_⟩
  rw [h]
  exact lookup_remove_video uploaded_videos video_path

/-- Witness for C5: a video uploaded at time 0 and streamed at time 4000
(> 3600) is deleted and nothing is yielded. -/
theorem expired_video_deleted_no_yield_witness :
    stream_annotated_video (φ := Unit) (π := Unit) 4000 uploaded₁ "vid.mp4"
        true [()] id
      = ⟨[], remove_video uploaded₁ "vid.mp4", true⟩
    ∧ lookup_video
        (stream_annotated_video (φ := Unit) (π := Unit) 4000 uploaded₁
          "vid.mp4" true [()] id).uploaded_videos "vid.mp4" = none :=
  expired_video_deleted_no_yield 4000 0 uploaded₁ "vid.mp4" true [()] id
    rfl (by decide)

/-- Claim C6, counterexample: the claim says a stream request whose path
has no session entry deletes the file like the expiry branch, but the
missing-session branch raises `ValueError`, which the generator's own
handler merely logs: the run yields nothing and deletes nothing
(`file_deleted = false`, not `true`). -/
theorem missing_session_keeps_file :
    lookup_video ([] : List (String × ℤ)) "vid.mp4" = none
    ∧ (stream_annotated_video (φ := Unit) (π := Unit) 0 [] "vid.mp4" true
        [()] id).file_deleted = false
    ∧ (stream_annotated_video (φ := Unit) (π := Unit) 0 [] "vid.mp4" true
        [()] id).yielded = [] :=
  ⟨rfl, rfl, rfl⟩

/-- Claim C6 as amended: a stream request whose video path has no entry in
the session map aborts and yields no frame part, but — unlike the expiry
branch — it does not delete the stored file and leaves the session map
unchanged. -/
theorem missing_session_aborts {φ π : Type} (now : ℤ)
    (uploaded_videos : List (String × ℤ)) (video_path : String)
    (opened : Bool) (frames : List φ) (handle : φ → π)
    (h : lookup_video uploaded_videos video_path = none) :
    stream_annotated_video now uploaded_videos video_path opened frames
        handle
      = ⟨[], uploaded_videos, false⟩ := by
  unfold stream_annotated_video
  rw [h]

/-- Witness for the amended C6 on the empty session map. -/
theorem missing_session_aborts_witness :
    stream_annotated_video (φ := Unit) (π := Unit) 0 [] "vid.mp4" true
        [()] id
      = ⟨[], [], false⟩ :=
  missing_session_aborts 0 [] "vid.mp4" true [()] id rfl

/-- Claim C7: during the live feed, `persons_recognized` fires on a frame
exactly when that frame's detected identity set differs from the previous
frame's (the set before the first frame being empty): the decision at any
position `i+1` is `true` iff the sets of frames `i+1` and `i` differ, and
the decision at position 0 is `true` iff the first set is nonempty. -/
theorem persons_recognized_iff_set_changed {α : Type} (dist : α → α → ℚ)
    (store : Store α) (pre : List (Except String (DetectedImage α)))
    (x y : Except String (DetectedImage α))
    (post : List (Except String (DetectedImage α))) :
    (process_video_events dist store (pre ++ x :: y :: post))[pre.length + 1]?
      = some (decide (detected_names (process_frame dist y store)
          ≠ detected_names (process_frame dist x store)))
    ∧ (process_video_events dist store (x :: post))[0]?
      = some (decide (detected_names (process_frame dist x store) ≠ ∅)) := by
  constructor
  · unfold process_video_events
    rw [List.map_append, emit_events_append, List.getElem?_append_right]
    · rw [emit_events_length, List.length_map, List.map_cons, List.map_cons]
      have h1 : pre.length + 1 - pre.length = 1 := by omega
      rw [h1]
      exact emit_events_second _ _ _ _
    · rw [emit_events_length, List.length_map]
      omega
  · unfold process_video_events
    rw [List.map_cons]
    exact emit_events_head _ _ _

/-- Claim C8: once `loaded_images` is set, `load_known_encodings` is a
no-op — the state (store included) is returned unchanged and no fetch from
remote storage is performed; moreover a successful load from the unloaded
state sets the flag, so the immediately following call is such a no-op. -/
theorem load_known_encodings_load_once {α : Type} (s : AppState α)
    (fetch fetch' : Except String (Store α)) (fetched : Store α)
    (h : s.loaded_images = true) :
    load_known_encodings s fetch = (s, false)
    ∧ (load_known_encodings ⟨s.known_encodings, false⟩
        (Except.ok fetched)).1.loaded_images = true
    ∧ load_known_encodings
        (load_known_encodings ⟨s.known_encodings, false⟩
          (Except.ok fetched)).1 fetch'
      = ((load_known_encodings ⟨s.known_encodings, false⟩
          (Except.ok fetched)).1, false) := by
  refine ⟨?_, rfl, rfl⟩
  simp [load_known_encodings, h]

/-- Witness for C8 on a concrete already-loaded state and a concrete
successful first load. -/
theorem load_known_encodings_load_once_witness :
    load_known_encodings appState₁ (Except.error "boom") = (appState₁, false)
    ∧ (load_known_encodings ⟨appState₁.known_encodings, false⟩
        (Except.ok store₂)).1.loaded_images = true
    ∧ load_known_encodings
        (load_known_encodings ⟨appState₁.known_encodings, false⟩
          (Except.ok store₂)).1 (Except.error "again")
      = ((load_known_encodings ⟨appState₁.known_encodings, false⟩
          (Except.ok store₂)).1, false) :=
  load_known_encodings_load_once appState₁ (Except.error "boom")
    (Except.error "again") store₂ rfl

/-- Claim C9: `process_frame` is total — it returns a plain list, and on
any failure of the decode/detect pipeline it returns the empty list —
whereas `recognize_faces_in_image` propagates the same failure to its
caller; on a successful pipeline the two agree. -/
theorem process_frame_total_recognize_propagates {α : Type}
    (dist : α → α → ℚ) (e : String) (store : Store α)
    (img : DetectedImage α) :
    process_frame dist (Except.error e) store = []
    ∧ recognize_faces_in_image dist (Except.error e) store = Except.error e
    ∧ recognize_faces_in_image dist (Except.ok img) store
      = Except.ok (process_frame dist (Except.ok img) store) :=
  ⟨rfl, rfl, rfl⟩

/-- Claim C10: every label produced by `process_frame` or
`recognize_faces_in_image` is `"Unknown"` or a key of the store (the
matcher only reads the store — in this embedding it takes the store as a
pure argument and returns no modified store), and with the empty store
every detected face is labeled `"Unknown"`. -/
theorem labels_unknown_or_store_key {α : Type} (dist : α → α → ℚ)
    (store : Store α) (decoded : Except String (DetectedImage α)) :
    (∀ x ∈ process_frame dist decoded store,
      x.2.2.2.2 = "Unknown" ∨ x.2.2.2.2 ∈ store.map Prod.fst)
    ∧ (∀ o, recognize_faces_in_image dist decoded store = Except.ok o →
        ∀ x ∈ o, x.2.2.2.2 = "Unknown" ∨ x.2.2.2.2 ∈ store.map Prod.fst)
    ∧ (∀ x ∈ process_frame dist decoded ([] : Store α),
        x.2.2.2.2 = "Unknown") := by
  refine ⟨?_, ?_, ?_⟩
  · intro x hx
    cases decoded with
    | error e => simp [process_frame] at hx
    | ok img =>
        simp only [process_frame, List.mem_map] at hx
        obtain ⟨f, _, hfe⟩ := hx
        rw [← hfe]
        exact matchFace_name_mem dist store f.2
  · intro o ho x hx
    cases decoded with
    | error e => simp [recognize_faces_in_image] at ho
    | ok img =>
        simp only [recognize_faces_in_image, Except.ok.injEq] at ho
        rw [← ho] at hx
        simp only [List.mem_map] at hx
        obtain ⟨f, _, hfe⟩ := hx
        rw [← hfe]
        exact matchFace_name_mem dist store f.2
  · intro x hx
    cases decoded with
    | error e => simp [process_frame] at hx
    | ok img =>
        simp only [process_frame, List.mem_map] at hx
        obtain ⟨f, _, hfe⟩ := hx
        rw [← hfe]
        rfl

/-- Witness for C10 at concrete inputs: a matched face's label is a store
key, the same holds through `recognize_faces_in_image`, and with the empty
store the label is `"Unknown"`. -/
theorem labels_unknown_or_store_key_witness :
    (("alice" : String) = "Unknown" ∨ ("alice" : String) ∈ store₁.map Prod.fst)
    ∧ (("alice" : String) = "Unknown" ∨ ("alice" : String) ∈ store₁.map Prod.fst)
    ∧ ("Unknown" : String) = "Unknown" :=
  ⟨(labels_unknown_or_store_key distNear store₁ (Except.ok img₁)).1
      (3, 4, 5, 6, "alice") (by decide),
   (labels_unknown_or_store_key distNear store₁ (Except.ok img₁)).2.1
      [(3, 4, 5, 6, "alice")] rfl (3, 4, 5, 6, "alice") (by decide),
   (labels_unknown_or_store_key distNear store₁ (Except.ok img₁)).2.2
      (3, 4, 5, 6, "Unknown") (by decide)⟩
